import Mathlib

/-!
# NewJobSprint: the form-submission and listing handlers

A shallow embedding of `handlers/user_Handler.go`.  Go strings are Lean
strings (sequences of runes; `.`, `/` and the ASCII letters are single bytes,
so the byte-wise scans of the library read the same on runes), byte slices are
lists of `Fin 256`, a value-or-error result is an `Except String _` carrying
the text of `err.Error()`, and the calls the handlers make on the request, the
response writer and the MongoDB driver are explicit state passing over
`Request`, `ResponseWriter` and `World`.  The handlers are stated on the
writer `{}`, which has written nothing, as the server hands one to each
request.
-/

namespace handlers

/-! ## Data model -/

deriving instance DecidableEq for Except

/-- One byte of a Go `[]byte`. -/
abbrev Byte := Fin 256

/-- User struct of `user_Handler.go`, lines 21-31. -/
structure User where
  Name : String
  Email : String
  PhoneNumber : String
  City : String
  JobTitle : String
  IdentityDocFront : String
  IdentityDocBack : String
  SelfieWithDoc : String
  Note : String
  deriving DecidableEq, Repr

/-- The constant `MaxUploadSize = 5 * 1024 * 1024`. -/
def MaxUploadSize : Nat := 5 * 1024 * 1024

/-- Entries of the map literal `allowedExtensions`. -/
def allowedExtensionsEntries : List (String × Bool) :=
  [(".jpg", true), (".png", true), (".pdf", true)]

/-- Indexing the Go map `allowedExtensions`: a key that is absent reads as `false`. -/
def allowedExtensions (ext : String) : Bool :=
  (allowedExtensionsEntries.lookup ext).getD false

/-! ## Library functions used by the upload validator -/

/-- Path separator test of `os.IsPathSeparator` on a Unix host. -/
def isPathSeparator (c : Char) : Bool := c = '/'

/-- Backwards scan of `filepath.Ext`: `before` is the part of the path still to
visit, last character first, and `suffix` is what has been walked over. -/
def extScan : List Char → List Char → List Char
  | [], _ => []
  | c :: before, suffix =>
    if isPathSeparator c then []
    else if c = '.' then c :: suffix
    else extScan before (c :: suffix)

/-- Go `filepath.Ext`: the suffix beginning at the final dot in the final
element of the path, and the empty string when there is no such dot. -/
def filepath.Ext (path : String) : String :=
  String.mk (extScan path.data.reverse [])

/-- Go `unicode.ToLower` on one rune.  The ASCII range is computed as in the
library; the case table for the other runes is not part of this repository and
is the parameter `table`. -/
def unicode.ToLower (table : Char → Char) (r : Char) : Char :=
  if r.toNat ≤ 127 then
    if 65 ≤ r.toNat ∧ r.toNat ≤ 90 then Char.ofNat (r.toNat + 32) else r
  else table r

/-- Go `strings.ToLower`: every rune mapped to lower case. -/
def strings.ToLower (table : Char → Char) (s : String) : String :=
  String.mk (s.data.map (unicode.ToLower table))

/-- The alphabet `encodeStd` of `encoding/base64`. -/
def encodeStd : List Char :=
  "ABCDEFGHIJKLMNOPQRSTUVWXYZabcdefghijklmnopqrstuvwxyz0123456789+/".data

/-- Table lookup `enc.encode[i]`. -/
def encodeChar (i : Nat) : Char := encodeStd.getD i 'A'

/-- The padding character `StdPadding`. -/
def padChar : Char := '='

/-- Go `(*Encoding).Encode` for `StdEncoding`: three source bytes become four
characters; a final block of one or two bytes is padded. -/
def base64.encode : List Byte → List Char
  | b0 :: b1 :: b2 :: rest =>
    let val := b0.val * 65536 + b1.val * 256 + b2.val
    encodeChar (val / 262144 % 64) :: encodeChar (val / 4096 % 64) ::
      encodeChar (val / 64 % 64) :: encodeChar (val % 64) :: base64.encode rest
  | [b0, b1] =>
    let val := b0.val * 65536 + b1.val * 256
    [encodeChar (val / 262144 % 64), encodeChar (val / 4096 % 64),
      encodeChar (val / 64 % 64), padChar]
  | [b0] =>
    let val := b0.val * 65536
    [encodeChar (val / 262144 % 64), encodeChar (val / 4096 % 64), padChar, padChar]
  | [] => []

/-- Go `base64.StdEncoding.EncodeToString`. -/
def base64.StdEncoding.EncodeToString (src : List Byte) : String :=
  String.mk (base64.encode src)

/-! ## The request -/

/-- Error value returned by a `Read`: `io.EOF` or any other error, with its text. -/
inductive ReadError where
  | EOF
  | other (msg : String)
  deriving DecidableEq, Repr

/-- An opened `multipart.File`: the bytes of the uploaded part, the number of
bytes the reader hands over in one `Read` call, and the error that call
reports.  The interface allows any `chunk`; the section readers that `FormFile`
returns hand over all the content that fits the buffer, `content.length ≤ chunk`. -/
structure File where
  content : List Byte
  chunk : Nat
  err : Option ReadError
  deriving DecidableEq, Repr

/-- One call `file.Read(buf)`: copies at most `chunk` bytes of the content to the
front of `buf`, leaves the rest of `buf` as it was, and returns the buffer, the
count and the error. -/
def File.Read (f : File) (buf : List Byte) : List Byte × Nat × Option ReadError :=
  let n := min (min f.chunk buf.length) f.content.length
  (f.content.take n ++ buf.drop n, n, f.err)

/-- The fields of `multipart.FileHeader` the handler reads. -/
structure FileHeader where
  Filename : String
  Size : Nat
  deriving DecidableEq, Repr

/-- A file part of a parsed form: its header and what `Open` returns for it. -/
structure FilePart where
  header : FileHeader
  «open» : Except String File

/-- Parsed form of a request: the values `FormValue` looks up (the fields of
the body and the parameters of the URL query) and the file parts, by name. -/
structure MultipartForm where
  Value : List (String × List String)
  File : List (String × List FilePart)

/-- The part of `http.Request` the handlers use: the method, what parsing the
size-capped multipart body yields, and the parsed form once it is stored. -/
structure Request where
  Method : String
  body : Except String MultipartForm
  MultipartForm : Option MultipartForm := none

/-- Go `(*Request).ParseMultipartForm`: stores the parsed form or fails. -/
def Request.ParseMultipartForm (r : Request) : Except String Request :=
  match r.body with
  | .error err => .error err
  | .ok form => .ok { r with MultipartForm := some form }

/-- Go `(*Request).FormValue` after the form has been parsed: the first value
of the field, or the empty string. -/
def Request.FormValue (r : Request) (key : String) : String :=
  match r.MultipartForm with
  | some form =>
    match form.Value.lookup key with
    | some (v :: _) => v
    | _ => ""
  | none => ""

/-- The error `http.ErrMissingFile`. -/
def ErrMissingFile : String := "http: no such file"

/-- Lookup done by `FormFile` in a parsed form: the first file of the field. -/
def MultipartForm.firstFile (form : MultipartForm) (key : String) :
    Except String (handlers.File × FileHeader) :=
  match form.File.lookup key with
  | some (fh :: _) =>
    match fh.open with
    | .ok f => .ok (f, fh.header)
    | .error err => .error err
  | _ => .error ErrMissingFile

/-- Go `(*Request).FormFile`: parses the form when that has not been done, then
opens the first file stored under `key`. -/
def Request.FormFile (r : Request) (key : String) : Except String (File × FileHeader) :=
  match r.MultipartForm with
  | some form => form.firstFile key
  | none =>
    match r.ParseMultipartForm with
    | .error err => .error err
    | .ok r1 =>
      match r1.MultipartForm with
      | some form => form.firstFile key
      | none => .error ErrMissingFile

/-! ## The upload validator -/

/-- Function `handleFileUpload` (lines 103-128): presence, size, extension,
then one read into a zeroed buffer of the declared size and Base64 encoding. -/
def handleFileUpload (table : Char → Char) (r : Request) (formKey : String) :
    Except String String :=
  match r.FormFile formKey with
  | .error err => .error ("failed to get file: " ++ err)
  | .ok (file, header) =>
    if header.Size > MaxUploadSize then
      .error "file size exceeds 5MB limit"
    else
      let ext := strings.ToLower table (filepath.Ext header.Filename)
      if !allowedExtensions ext then
        .error ("invalid file type: " ++ ext)
      else
        let buf := List.replicate header.Size (0 : Byte)
        match file.Read buf with
        | (_, _, some (.other msg)) => .error ("failed to read file: " ++ msg)
        | (buf, _, _) => .ok (base64.StdEncoding.EncodeToString buf)

/-! ## The response writer -/

/-- State of an `http.ResponseWriter`: the header map as it will be sent, the
status once the header has been written, and the body written so far. -/
structure ResponseWriter where
  header : List (String × String) := []
  status : Option Nat := none
  body : String := ""
  deriving DecidableEq, Repr

/-- Go `Header.Del` on the header of the response.  Once the header has been
written a change of the map no longer reaches the client. -/
def ResponseWriter.Del (w : ResponseWriter) (key : String) : ResponseWriter :=
  if w.status.isSome then w
  else { w with header := w.header.filter (fun kv => kv.1 != key) }

/-- Go `Header.Set` on the header of the response: replaces the value of the key. -/
def ResponseWriter.Set (w : ResponseWriter) (key value : String) : ResponseWriter :=
  if w.status.isSome then w
  else { w with header := w.header.filter (fun kv => kv.1 != key) ++ [(key, value)] }

/-- Go `ResponseWriter.WriteHeader`: fixes the status; a second call is ignored. -/
def ResponseWriter.WriteHeader (w : ResponseWriter) (code : Nat) : ResponseWriter :=
  if w.status.isSome then w else { w with status := some code }

/-- Go `ResponseWriter.Write`: writes status 200 first when none was written. -/
def ResponseWriter.Write (w : ResponseWriter) (data : String) : ResponseWriter :=
  { w.WriteHeader 200 with body := w.body ++ data }

/-- Go `http.Error`: replaces the content type by plain text, writes the status
and prints the message followed by a newline. -/
def http.Error (w : ResponseWriter) (error : String) (code : Nat) : ResponseWriter :=
  let w := w.Del "Content-Length"
  let w := w.Set "Content-Type" "text/plain; charset=utf-8"
  let w := w.Set "X-Content-Type-Options" "nosniff"
  let w := w.WriteHeader code
  w.Write (error ++ "\n")

/-- Status code the client receives: the written one, 200 when none was written. -/
def ResponseWriter.code (w : ResponseWriter) : Nat := w.status.getD 200

/-- Value of the `Content-Type` header the client receives, if any. -/
def ResponseWriter.contentType (w : ResponseWriter) : Option String :=
  w.header.lookup "Content-Type"

def http.MethodGet : String := "GET"
def http.MethodPost : String := "POST"
def http.StatusCreated : Nat := 201
def http.StatusBadRequest : Nat := 400
def http.StatusMethodNotAllowed : Nat := 405
def http.StatusRequestEntityTooLarge : Nat := 413
def http.StatusInternalServerError : Nat := 500

/-! ## The store -/

/-- A `bson.M` document whose values are strings, as a list of key-value pairs
with distinct keys. -/
abbrev Doc := List (String × String)

/-- Map assignment `doc[key] = value`. -/
def Doc.set (doc : Doc) (key value : String) : Doc :=
  doc.filter (fun kv => kv.1 != key) ++ [(key, value)]

/-- Calls the handlers make outside themselves, in the order they are made. -/
inductive Event where
  | ParseMultipartForm
  | handleFileUpload (formKey : String)
  | insertUserIntoMongo (user : User)
  | Connect
  | InsertOne (doc : Doc)
  | Find
  deriving DecidableEq, Repr

/-- The world outside a handler: what the MongoDB driver answers to `Connect`,
`InsertOne`, `Find` and `All` (`none` is a nil error), the documents of the
collection `job_sprint.applications`, and the trace of calls made so far. -/
structure World where
  connectErr : Option String := none
  insertErr : Option String := none
  findErr : Option String := none
  allErr : Option String := none
  applications : List Doc := []
  trace : List Event := []
  deriving DecidableEq, Repr

/-- Appends a call to the trace. -/
def World.record (world : World) (e : Event) : World :=
  { world with trace := world.trace ++ [e] }

/-- The document `insertUserIntoMongo` builds (lines 145-157): the eight fixed
keys, and `notes` only when the note is not empty. -/
def insertUserIntoMongo.doc (user : User) : Doc :=
  let doc : Doc := [
    ("name", user.Name),
    ("email", user.Email),
    ("phone_number", user.PhoneNumber),
    ("city", user.City),
    ("job_title", user.JobTitle),
    ("identity_doc_front", user.IdentityDocFront),
    ("identity_doc_back", user.IdentityDocBack),
    ("selfie_with_doc", user.SelfieWithDoc)]
  if user.Note != "" then doc.set "notes" user.Note else doc

/-- Function `insertUserIntoMongo` (lines 131-164): connects, builds the
document and inserts it; the result is the error text, `none` for nil. -/
def insertUserIntoMongo (user : User) (world : World) : Option String × World :=
  let world := world.record .Connect
  match world.connectErr with
  | some err => (some ("failed to connect to MongoDB: " ++ err), world)
  | none =>
    let doc := insertUserIntoMongo.doc user
    let world := world.record (.InsertOne doc)
    match world.insertErr with
    | some err => (some ("failed to insert user: " ++ err), world)
    | none => (none, { world with applications := world.applications ++ [doc] })

/-! ## The submission handler -/

/-- Function `handleFormSubmission` (lines 38-100). -/
def handleFormSubmission (table : Char → Char) (w : ResponseWriter) (r : Request)
    (world : World) : ResponseWriter × World :=
  if r.Method != http.MethodPost then
    let w := w.Set "Content-Type" "application/json"
    (http.Error w "\x7b\"message\": \"Method not allowed\"\x7d" http.StatusMethodNotAllowed, world)
  else
    let world := world.record .ParseMultipartForm
    match r.ParseMultipartForm with
    | .error _ =>
      let w := w.Set "Content-Type" "application/json"
      (http.Error w "\x7b\"message\": \"File is too large\"\x7d"
        http.StatusRequestEntityTooLarge, world)
    | .ok r =>
      let user : User := {
        Name := r.FormValue "fullName",
        Email := r.FormValue "email",
        PhoneNumber := r.FormValue "phone",
        City := r.FormValue "city",
        JobTitle := r.FormValue "jobRole",
        Note := r.FormValue "notes",
        IdentityDocFront := "", IdentityDocBack := "", SelfieWithDoc := "" }
      let world := world.record (.handleFileUpload "idFront")
      match handleFileUpload table r "idFront" with
      | .error err =>
        let w := w.Set "Content-Type" "application/json"
        (http.Error w ("\x7b\"message\": \"" ++ err ++ "\"\x7d") http.StatusBadRequest, world)
      | .ok front =>
        let user := { user with IdentityDocFront := front }
        let world := world.record (.handleFileUpload "idBack")
        match handleFileUpload table r "idBack" with
        | .error err =>
          let w := w.Set "Content-Type" "application/json"
          (http.Error w ("\x7b\"message\": \"" ++ err ++ "\"\x7d") http.StatusBadRequest, world)
        | .ok back =>
          let user := { user with IdentityDocBack := back }
          let world := world.record (.handleFileUpload "selfieWithId")
          match handleFileUpload table r "selfieWithId" with
          | .error err =>
            let w := w.Set "Content-Type" "application/json"
            (http.Error w ("\x7b\"message\": \"" ++ err ++ "\"\x7d") http.StatusBadRequest,
              world)
          | .ok selfie =>
            let user := { user with SelfieWithDoc := selfie }
            let world := world.record (.insertUserIntoMongo user)
            match insertUserIntoMongo user world with
            | (some _, world) =>
              let w := w.Set "Content-Type" "application/json"
              (http.Error w "\x7b\"message\": \"Error storing user data\"\x7d"
                http.StatusInternalServerError, world)
            | (none, world) =>
              let w := w.Set "Content-Type" "application/json"
              let w := w.WriteHeader http.StatusCreated
              (w.Write "\x7b\"message\":\"Application submitted successfully\"\x7d\n", world)

/-! ## The listing handler -/

/-- Decoding of a stored document into a `User` by the `bson` tags: a key that
is absent leaves the zero value. -/
def Doc.decodeUser (doc : Doc) : User := {
  Name := (doc.lookup "name").getD "",
  Email := (doc.lookup "email").getD "",
  PhoneNumber := (doc.lookup "phone_number").getD "",
  City := (doc.lookup "city").getD "",
  JobTitle := (doc.lookup "job_title").getD "",
  IdentityDocFront := (doc.lookup "identity_doc_front").getD "",
  IdentityDocBack := (doc.lookup "identity_doc_back").getD "",
  SelfieWithDoc := (doc.lookup "selfie_with_doc").getD "",
  Note := (doc.lookup "notes").getD "" }

/-- Driver call `cursor.All(ctx, &users)` on a slice that holds no element yet
(`none` is the nil slice).  The driver appends one decoded element per
document to the slice it is given and then stores `slice[0:count]` back, so
that without documents a nil slice stays nil and any other slice becomes
empty. -/
def Cursor.All (world : World) (results : Option (List User)) :
    Except String (Option (List User)) :=
  match world.allErr with
  | some err => .error err
  | none =>
    match world.applications with
    | [] => .ok (results.map (fun _ => []))
    | docs => .ok (some (docs.map Doc.decodeUser))

/-- Rendering of a `User` by `encoding/json` with the struct tags of lines
22-30: `notes` carries `omitempty`.  The string encoder `quote` of the library
is not part of this repository and is a parameter. -/
def json.user (quote : String → String) (u : User) : String :=
  "\x7b\"name\":" ++ quote u.Name ++
  ",\"email\":" ++ quote u.Email ++
  ",\"phone_number\":" ++ quote u.PhoneNumber ++
  ",\"city\":" ++ quote u.City ++
  ",\"job_title\":" ++ quote u.JobTitle ++
  ",\"identity_doc_front\":" ++ quote u.IdentityDocFront ++
  ",\"identity_doc_back\":" ++ quote u.IdentityDocBack ++
  ",\"selfie_with_doc\":" ++ quote u.SelfieWithDoc ++
  (if u.Note = "" then "" else ",\"notes\":" ++ quote u.Note) ++ "\x7d"

/-- Go `json.NewEncoder(w).Encode(users)` for a `[]User`: a nil slice is
rendered as `null`, any other slice as an array, and a newline follows.
Rendering strings cannot fail, so the result is always a value. -/
def json.Encode (quote : String → String) (users : Option (List User)) :
    Except String String :=
  match users with
  | none => .ok "null\n"
  | some us => .ok ("[" ++ ",".intercalate (us.map (json.user quote)) ++ "]\n")

/-- Function `handleGetAllUsers` (lines 167-213). -/
def handleGetAllUsers (quote : String → String) (w : ResponseWriter) (r : Request)
    (world : World) : ResponseWriter × World :=
  if r.Method != http.MethodGet then
    (http.Error w "Method not allowed" http.StatusMethodNotAllowed, world)
  else
    let world := world.record .Connect
    match world.connectErr with
    | some err =>
      (http.Error w ("Failed to connect to MongoDB: " ++ err)
        http.StatusInternalServerError, world)
    | none =>
      let world := world.record .Find
      match world.findErr with
      | some err =>
        (http.Error w ("Failed to retrieve data: " ++ err)
          http.StatusInternalServerError, world)
      | none =>
        let users : Option (List User) := none
        match Cursor.All world users with
        | .error err =>
          (http.Error w ("Failed to parse data: " ++ err)
            http.StatusInternalServerError, world)
        | .ok users =>
          let w := w.Set "Content-Type" "application/json"
          match json.Encode quote users with
          | .error err =>
            (http.Error w ("Failed to encode data: " ++ err)
              http.StatusInternalServerError, world)
          | .ok out => (w.Write out, world)

/-! ## Sample inputs -/

/-- A file part whose header declares the size `size` and whose single read
hands over `chunk` bytes of `content`. -/
def samplePart (filename : String) (size : Nat) (content : List Byte) (chunk : Nat) :
    FilePart :=
  { header := { Filename := filename, Size := size },
    «open» := .ok { content := content, chunk := chunk, err := none } }

/-- A parsed request that holds one file under `idFront`. -/
def oneFileRequest (p : FilePart) : Request :=
  { Method := "POST",
    body := .ok { Value := [], File := [("idFront", [p])] },
    MultipartForm := some { Value := [], File := [("idFront", [p])] } }

/-! ## Base64 decoding, to state the round trip -/

/-- Position of a character in the standard alphabet, if it has one. -/
def decodeChar (c : Char) : Option Nat :=
  if encodeStd.indexOf c < 64 then some (encodeStd.indexOf c) else none

/-- Decoding of Base64 text in the standard alphabet with padding: four
characters give three bytes, and only the last group may end in one or two
padding characters, giving two bytes or one. -/
def base64.decode : List Char → Option (List Byte)
  | [] => some []
  | c0 :: c1 :: c2 :: c3 :: rest =>
    match decodeChar c0, decodeChar c1 with
    | some i0, some i1 =>
      if c2 = padChar then
        if c3 = padChar ∧ rest = [] then some [Fin.ofNat (i0 * 4 + i1 / 16)] else none
      else
        match decodeChar c2 with
        | none => none
        | some i2 =>
          if c3 = padChar then
            if rest = [] then
              some [Fin.ofNat (i0 * 4 + i1 / 16), Fin.ofNat (i1 % 16 * 16 + i2 / 4)]
            else none
          else
            match decodeChar c3 with
            | none => none
            | some i3 =>
              (base64.decode rest).map (fun bs =>
                Fin.ofNat (i0 * 4 + i1 / 16) :: Fin.ofNat (i1 % 16 * 16 + i2 / 4) ::
                  Fin.ofNat (i2 % 4 * 64 + i3) :: bs)
    | _, _ => none
  | _ => none

/-- Decoding of a Base64 string, the counterpart of `EncodeToString`. -/
def base64.StdEncoding.DecodeString (s : String) : Option (List Byte) :=
  base64.decode s.data

/-! ## Names for parts of the submission handler, to state its properties -/

/-- The record `handleFormSubmission` assembles (lines 55-62, 65, 73, 81) from
the parsed request and the three encoded uploads. -/
def submittedUser (r : Request) (front back selfie : String) : User := {
  Name := r.FormValue "fullName",
  Email := r.FormValue "email",
  PhoneNumber := r.FormValue "phone",
  City := r.FormValue "city",
  JobTitle := r.FormValue "jobRole",
  Note := r.FormValue "notes",
  IdentityDocFront := front,
  IdentityDocBack := back,
  SelfieWithDoc := selfie }

/-- What `http.Error` leaves in a writer that has written nothing before. -/
def errorResponse (error : String) (code : Nat) : ResponseWriter := {
  header := [("Content-Type", "text/plain; charset=utf-8"),
    ("X-Content-Type-Options", "nosniff")],
  status := some code,
  body := error ++ "\n" }

/-- Text `handleFormSubmission` passes to `http.Error` for the error text `err`. -/
def messageBody (err : String) : String := "\x7b\"message\": \"" ++ err ++ "\"\x7d"

/-- The world once the form is parsed and the uploads under `keys` are validated. -/
def World.afterUploads (world : World) (keys : List String) : World :=
  { world with
    trace := world.trace ++ Event.ParseMultipartForm :: keys.map Event.handleFileUpload }

/-- A POST request whose multipart body parses to the given values and files. -/
def submission (values : List (String × List String))
    (files : List (String × List FilePart)) : Request :=
  { Method := "POST", body := .ok { Value := values, File := files } }

/-- The request `submission values files` once its form is parsed and stored. -/
def parsedSubmission (values : List (String × List String))
    (files : List (String × List FilePart)) : Request :=
  { Method := "POST", body := .ok { Value := values, File := files },
    MultipartForm := some { Value := values, File := files } }

/-- A submission with a valid front document and no other file. -/
def frontOnlyRequest : Request :=
  submission [("fullName", ["Ada"])] [("idFront", [samplePart "front.jpg" 3 [1, 2, 3] 3])]

/-- The request `frontOnlyRequest` once its form is parsed and stored. -/
def frontOnlyParsed : Request :=
  parsedSubmission [("fullName", ["Ada"])] [("idFront", [samplePart "front.jpg" 3 [1, 2, 3] 3])]

/-- A submission without any text field, with three files that pass validation;
the selfie holds no byte. -/
def blankRequest : Request :=
  submission [] [
    ("idFront", [samplePart "front.jpg" 3 [1, 2, 3] 3]),
    ("idBack", [samplePart "back.PNG" 1 [1] 1]),
    ("selfieWithId", [samplePart "selfie.pdf" 0 [] 0])]

/-- A complete submission: five text fields and three files that pass validation. -/
def fullRequest : Request :=
  submission
    [("fullName", ["Ada"]), ("email", ["ada@example.org"]), ("phone", ["555"]),
      ("city", ["Paris"]), ("jobRole", ["Engineer"])]
    [("idFront", [samplePart "front.jpg" 3 [1, 2, 3] 3]),
      ("idBack", [samplePart "back.PNG" 1 [1] 1]),
      ("selfieWithId", [samplePart "selfie.pdf" 2 [77, 97] 2])]

/-- The request `fullRequest` once its form is parsed and stored. -/
def fullParsed : Request :=
  parsedSubmission
    [("fullName", ["Ada"]), ("email", ["ada@example.org"]), ("phone", ["555"]),
      ("city", ["Paris"]), ("jobRole", ["Engineer"])]
    [("idFront", [samplePart "front.jpg" 3 [1, 2, 3] 3]),
      ("idBack", [samplePart "back.PNG" 1 [1] 1]),
      ("selfieWithId", [samplePart "selfie.pdf" 2 [77, 97] 2])]

/-- A file part whose read reports an error other than end-of-file. -/
def unreadablePart : FilePart :=
  { header := { Filename := "front.jpg", Size := 3 },
    «open» := .ok { content := [1, 2, 3], chunk := 0, err := some (.other "read failure") } }

/-- A complete submission whose front document cannot be read. -/
def unreadableRequest : Request :=
  submission [("fullName", ["Ada"])]
    [("idFront", [unreadablePart]),
      ("idBack", [samplePart "back.PNG" 1 [1] 1]),
      ("selfieWithId", [samplePart "selfie.pdf" 2 [77, 97] 2])]

/-- A submission whose front document is named `a."b`: the extension holds a
double quote. -/
def quotedNameRequest : Request :=
  submission [("fullName", ["Ada"])]
    [("idFront", [samplePart "a.\"b" 3 [1, 2, 3] 3]),
      ("idBack", [samplePart "back.png" 1 [1] 1]),
      ("selfieWithId", [samplePart "selfie.pdf" 2 [77, 97] 2])]

/-- A GET request; it carries no multipart body. -/
def listRequest : Request :=
  { Method := "GET", body := .error "request Content-Type isn't multipart/form-data" }

/-! ## JSON texts, to state what a body is -/

/-- Where a scan of a JSON string literal stands: among plain characters, right
after a backslash, or inside a `\u` escape with `left` hexadecimal digits to come. -/
inductive StringState where
  | plain
  | escape
  | hex (left : Nat)

/-- Hexadecimal digit test. -/
def isHexDigit (c : Char) : Bool :=
  (48 ≤ c.toNat ∧ c.toNat ≤ 57) ∨ (65 ≤ c.toNat ∧ c.toNat ≤ 70) ∨
    (97 ≤ c.toNat ∧ c.toNat ≤ 102)

/-- Characters that may follow a backslash in a JSON string, `u` apart:
the double quote, the backslash, the slash and the letters b, f, n, r, t. -/
def isSimpleEscape (c : Char) : Bool :=
  c.toNat = 34 ∨ c.toNat = 92 ∨ c.toNat = 47 ∨ c.toNat = 98 ∨ c.toNat = 102 ∨
    c.toNat = 110 ∨ c.toNat = 114 ∨ c.toNat = 116

/-- Scan of a JSON string literal after its opening quote (RFC 8259, section 7):
the text that follows the closing quote, or `none` when the literal is
malformed: a control character, a bad escape, or no closing quote. -/
def jsonStringRest : StringState → List Char → Option (List Char)
  | _, [] => none
  | .plain, c :: cs =>
    if c.toNat = 34 then some cs
    else if c.toNat = 92 then jsonStringRest .escape cs
    else if c.toNat < 32 then none
    else jsonStringRest .plain cs
  | .escape, c :: cs =>
    if isSimpleEscape c then jsonStringRest .plain cs
    else if c.toNat = 117 then jsonStringRest (.hex 4) cs
    else none
  | .hex left, c :: cs =>
    if isHexDigit c then
      if left ≤ 1 then jsonStringRest .plain cs else jsonStringRest (.hex (left - 1)) cs
    else none

/-- JSON white space: space, tab, line feed, carriage return. -/
def isJsonSpace (c : Char) : Bool :=
  c.toNat = 32 ∨ c.toNat = 9 ∨ c.toNat = 10 ∨ c.toNat = 13

/-- Removes the characters `lit` from the front of a text, when they are there. -/
def dropLiteral : List Char → List Char → Option (List Char)
  | [], s => some s
  | _ :: _, [] => none
  | p :: ps, c :: cs => if p = c then dropLiteral ps cs else none

/-- Reads a JSON object with the single key "message" and a string value, white
space allowed between the tokens: the text left after the closing brace and
the white space behind it. -/
def messageObjectRest (body : List Char) : Option (List Char) := do
  let s ← dropLiteral "\x7b".data (body.dropWhile isJsonSpace)
  let s ← dropLiteral "\"message\"".data (s.dropWhile isJsonSpace)
  let s ← dropLiteral ":".data (s.dropWhile isJsonSpace)
  let s ← dropLiteral "\"".data (s.dropWhile isJsonSpace)
  let s ← jsonStringRest .plain s
  let s ← dropLiteral "\x7d".data (s.dropWhile isJsonSpace)
  some (s.dropWhile isJsonSpace)

/-- Test that a body is a well-formed JSON object with the single key "message"
and a string value, and nothing else. -/
def isMessageObject (body : String) : Bool :=
  messageObjectRest body.data = some []

/-! ## Texts of the validator errors are pairwise distinct -/

theorem read_ne_tooLarge (m : String) :
    "failed to read file: " ++ m ≠ "file size exceeds 5MB limit" := by
  intro h
  have h2 := congrArg String.data h
  simp [String.data_append] at h2

theorem type_ne_tooLarge (m : String) :
    "invalid file type: " ++ m ≠ "file size exceeds 5MB limit" := by
  intro h
  have h2 := congrArg String.data h
  simp [String.data_append] at h2

theorem read_ne_type (m e : String) :
    "failed to read file: " ++ m ≠ "invalid file type: " ++ e := by
  intro h
  have h2 := congrArg String.data h
  simp [String.data_append] at h2

theorem tooLarge_ne_type (e : String) :
    "file size exceeds 5MB limit" ≠ "invalid file type: " ++ e :=
  fun h => type_ne_tooLarge e h.symm

/-! ## The validator, case by case -/

theorem MaxUploadSize_eq : MaxUploadSize = 5242880 := by decide

/-- A present part larger than the limit is refused for its size. -/
theorem handleFileUpload_tooLarge (table : Char → Char) (r : Request) (formKey : String)
    (file : File) (header : FileHeader) (hp : r.FormFile formKey = .ok (file, header))
    (h : header.Size > MaxUploadSize) :
    handleFileUpload table r formKey = .error "file size exceeds 5MB limit" := by
  simp [handleFileUpload, hp, h]

/-- A present part within the limit whose extension is not allowed is refused
for its type. -/
theorem handleFileUpload_badType (table : Char → Char) (r : Request) (formKey : String)
    (file : File) (header : FileHeader) (hp : r.FormFile formKey = .ok (file, header))
    (h : header.Size ≤ MaxUploadSize)
    (hx : allowedExtensions (strings.ToLower table (filepath.Ext header.Filename)) = false) :
    handleFileUpload table r formKey =
      .error ("invalid file type: " ++ strings.ToLower table (filepath.Ext header.Filename)) := by
  simp [handleFileUpload, hp, Nat.not_lt.mpr h, hx]

/-- A present part that passes both checks and whose read reports an error
other than end-of-file fails with that error. -/
theorem handleFileUpload_readError (table : Char → Char) (r : Request) (formKey : String)
    (file : File) (header : FileHeader) (hp : r.FormFile formKey = .ok (file, header))
    (h : header.Size ≤ MaxUploadSize)
    (hx : allowedExtensions (strings.ToLower table (filepath.Ext header.Filename)) = true)
    (msg : String) (he : file.err = some (.other msg)) :
    handleFileUpload table r formKey = .error ("failed to read file: " ++ msg) := by
  simp [handleFileUpload, hp, Nat.not_lt.mpr h, hx, File.Read, he]

/-- A present part that passes both checks and whose read reports no error or
end-of-file is encoded: the buffer holds the bytes read and then zeros. -/
theorem handleFileUpload_ok (table : Char → Char) (r : Request) (formKey : String)
    (file : File) (header : FileHeader) (hp : r.FormFile formKey = .ok (file, header))
    (h : header.Size ≤ MaxUploadSize)
    (hx : allowedExtensions (strings.ToLower table (filepath.Ext header.Filename)) = true)
    (he : file.err = none ∨ file.err = some .EOF) :
    handleFileUpload table r formKey =
      .ok (base64.StdEncoding.EncodeToString
        (file.content.take (min (min file.chunk header.Size) file.content.length) ++
          List.replicate
            (header.Size - min (min file.chunk header.Size) file.content.length) 0)) := by
  rcases he with he | he <;>
    simp [handleFileUpload, hp, Nat.not_lt.mpr h, hx, File.Read, he]

/-! ## Shape of `filepath.Ext` -/

theorem extScan_skip (l rest acc : List Char)
    (h : ∀ c ∈ l, c ≠ '.' ∧ c ≠ '/') :
    extScan (l ++ rest) acc = extScan rest (l.reverse ++ acc) := by
  induction l generalizing acc with
  | nil => simp
  | cons c l ih =>
    have hc := h c (List.mem_cons_self c l)
    have hl : ∀ d ∈ l, d ≠ '.' ∧ d ≠ '/' := fun d hd => h d (List.mem_cons_of_mem c hd)
    simp [extScan, isPathSeparator, hc.1, hc.2, ih (c :: acc) hl]

/-- The extension of `pre ++ "." ++ suf` is `"." ++ suf` when `suf` holds neither
a dot nor a separator. -/
theorem Ext_of_dot (pre suf : List Char) (h : ∀ c ∈ suf, c ≠ '.' ∧ c ≠ '/') :
    filepath.Ext (String.mk (pre ++ '.' :: suf)) = String.mk ('.' :: suf) := by
  have h2 : ∀ c ∈ suf.reverse, c ≠ '.' ∧ c ≠ '/' := fun c hc => h c (List.mem_reverse.mp hc)
  have := extScan_skip suf.reverse ('.' :: pre.reverse) [] h2
  simp only [extScan, isPathSeparator] at this
  simp only [filepath.Ext, List.reverse_append, List.reverse_cons, List.append_assoc,
    List.singleton_append]
  rw [this]
  simp

/-- The extension is empty when the last path element holds no dot. -/
theorem Ext_of_noDot (pre suf : List Char) (h : ∀ c ∈ suf, c ≠ '.' ∧ c ≠ '/') :
    filepath.Ext (String.mk suf) = "" ∧
    filepath.Ext (String.mk (pre ++ '/' :: suf)) = "" := by
  have h2 : ∀ c ∈ suf.reverse, c ≠ '.' ∧ c ≠ '/' := fun c hc => h c (List.mem_reverse.mp hc)
  have e1 := extScan_skip suf.reverse [] [] h2
  have e2 := extScan_skip suf.reverse ('/' :: pre.reverse) [] h2
  constructor
  · simp [filepath.Ext] at e1 ⊢
    simp [e1, extScan]
  · simp [filepath.Ext] at e2 ⊢
    simp [e2, extScan, isPathSeparator]

theorem allowedExtensions_iff (ext : String) :
    allowedExtensions ext = true ↔ ext ∈ [".jpg", ".png", ".pdf"] := by
  simp only [allowedExtensions, allowedExtensionsEntries, List.lookup]
  by_cases h1 : ext = ".jpg"
  · subst h1; decide
  by_cases h2 : ext = ".png"
  · subst h2; decide
  by_cases h3 : ext = ".pdf"
  · subst h3; decide
  have b1 : (ext == ".jpg") = false := by simpa using h1
  have b2 : (ext == ".png") = false := by simpa using h2
  have b3 : (ext == ".pdf") = false := by simpa using h3
  simp [b1, b2, b3, h1, h2, h3]

example (table : Char → Char) : allowedExtensions (strings.ToLower table (filepath.Ext "a.JPG")) = true := by rfl
/-! ## Claims on the upload validator -/

/-- C3: for a present file part, `handleFileUpload` fails with the text
"file size exceeds 5MB limit" exactly when the declared size is greater than
`MaxUploadSize = 5 * 1024 * 1024 = 5242880`, whatever the filename is; a part
of exactly 5242880 bytes is not refused for its size. -/
theorem handleFileUpload_size_iff (table : Char → Char) (r : Request) (formKey : String)
    (file : File) (header : FileHeader) (hp : r.FormFile formKey = .ok (file, header)) :
    MaxUploadSize = 5 * 1024 * 1024 ∧ MaxUploadSize = 5242880 ∧
    (handleFileUpload table r formKey = .error "file size exceeds 5MB limit" ↔
      header.Size > 5242880) ∧
    (header.Size = 5242880 →
      handleFileUpload table r formKey ≠ .error "file size exceeds 5MB limit") := by
  have key : handleFileUpload table r formKey = .error "file size exceeds 5MB limit" ↔
      header.Size > 5242880 := by
    constructor
    · intro hres
      by_contra hle
      have hle2 : header.Size ≤ MaxUploadSize := by
        rw [MaxUploadSize_eq]; omega
      cases hx : allowedExtensions (strings.ToLower table (filepath.Ext header.Filename)) with
      | false =>
        rw [handleFileUpload_badType table r formKey file header hp hle2 hx] at hres
        exact type_ne_tooLarge _ (Except.error.inj hres)
      | true =>
        cases he : file.err with
        | none =>
          rw [handleFileUpload_ok table r formKey file header hp hle2 hx (Or.inl he)] at hres
          cases hres
        | some e =>
          cases e with
          | EOF =>
            rw [handleFileUpload_ok table r formKey file header hp hle2 hx (Or.inr he)] at hres
            cases hres
          | other msg =>
            rw [handleFileUpload_readError table r formKey file header hp hle2 hx msg he]
              at hres
            exact read_ne_tooLarge _ (Except.error.inj hres)
    · intro hgt
      exact handleFileUpload_tooLarge table r formKey file header hp
        (by rw [MaxUploadSize_eq]; exact hgt)
  refine ⟨rfl, MaxUploadSize_eq, key, ?_⟩
  intro hs hres
  have := key.mp hres
  omega

/-- C3 at a concrete input: a part named "cv.exe" declaring 5242881 bytes is
refused for its size, and one named "cv.jpg" declaring 5242880 bytes is not. -/
theorem handleFileUpload_size_iff_witness :
    (oneFileRequest (samplePart "cv.exe" 5242881 [] 0)).FormFile "idFront" =
      .ok ({ content := [], chunk := 0, err := none }, { Filename := "cv.exe", Size := 5242881 }) ∧
    handleFileUpload id (oneFileRequest (samplePart "cv.exe" 5242881 [] 0)) "idFront" =
      .error "file size exceeds 5MB limit" ∧
    handleFileUpload id (oneFileRequest (samplePart "cv.jpg" 5242880 [] 0)) "idFront" ≠
      .error "file size exceeds 5MB limit" :=
  ⟨rfl,
   (handleFileUpload_size_iff id (oneFileRequest (samplePart "cv.exe" 5242881 [] 0)) "idFront"
      { content := [], chunk := 0, err := none } { Filename := "cv.exe", Size := 5242881 }
      rfl).2.2.1.mpr (by decide),
   (handleFileUpload_size_iff id (oneFileRequest (samplePart "cv.jpg" 5242880 [] 0)) "idFront"
      { content := [], chunk := 0, err := none } { Filename := "cv.jpg", Size := 5242880 }
      rfl).2.2.2 rfl⟩

/-- C4: for a present file part whose declared size is at most 5242880,
`handleFileUpload` fails with "invalid file type: <ext>" exactly when the
lower-cased extension of the filename is none of ".jpg", ".png", ".pdf", and
the text then carries that extension.  The extension is the suffix from the
final dot of the last path element, empty without a dot.  The verdict is the
same for every part with the same filename, whatever its content; "a.JPG" and
"b.Pdf" pass, "a.exe", "a.jpeg" and "a" do not. -/
theorem handleFileUpload_type_iff (table : Char → Char) (r : Request) (formKey : String)
    (file : File) (header : FileHeader) (hp : r.FormFile formKey = .ok (file, header))
    (hs : header.Size ≤ 5242880) :
    ((∃ ext, handleFileUpload table r formKey = .error ("invalid file type: " ++ ext)) ↔
      strings.ToLower table (filepath.Ext header.Filename) ∉ [".jpg", ".png", ".pdf"]) ∧
    (strings.ToLower table (filepath.Ext header.Filename) ∉ [".jpg", ".png", ".pdf"] →
      handleFileUpload table r formKey =
        .error ("invalid file type: " ++ strings.ToLower table (filepath.Ext header.Filename))) ∧
    (∀ pre suf : List Char, (∀ c ∈ suf, c ≠ '.' ∧ c ≠ '/') →
      filepath.Ext (String.mk (pre ++ '.' :: suf)) = String.mk ('.' :: suf) ∧
      filepath.Ext (String.mk suf) = "" ∧
      filepath.Ext (String.mk (pre ++ '/' :: suf)) = "") ∧
    (∀ (r2 : Request) (key2 : String) (file2 : File) (header2 : FileHeader),
      r2.FormFile key2 = .ok (file2, header2) → header2.Size ≤ 5242880 →
      header2.Filename = header.Filename →
      ((∃ ext, handleFileUpload table r2 key2 = .error ("invalid file type: " ++ ext)) ↔
        (∃ ext, handleFileUpload table r formKey = .error ("invalid file type: " ++ ext)))) ∧
    allowedExtensions (strings.ToLower table (filepath.Ext "a.JPG")) = true ∧
    allowedExtensions (strings.ToLower table (filepath.Ext "b.Pdf")) = true ∧
    allowedExtensions (strings.ToLower table (filepath.Ext "a.exe")) = false ∧
    allowedExtensions (strings.ToLower table (filepath.Ext "a.jpeg")) = false ∧
    allowedExtensions (strings.ToLower table (filepath.Ext "a")) = false := by
  have verdict : ∀ (r2 : Request) (key2 : String) (file2 : File) (header2 : FileHeader),
      r2.FormFile key2 = .ok (file2, header2) → header2.Size ≤ 5242880 →
      ((∃ ext, handleFileUpload table r2 key2 = .error ("invalid file type: " ++ ext)) ↔
        strings.ToLower table (filepath.Ext header2.Filename) ∉ [".jpg", ".png", ".pdf"]) := by
    intro r2 key2 file2 header2 hp2 hs2
    have hle : header2.Size ≤ MaxUploadSize := by rw [MaxUploadSize_eq]; exact hs2
    rw [← allowedExtensions_iff]
    constructor
    · rintro ⟨ext, hres⟩
      cases hx : allowedExtensions (strings.ToLower table (filepath.Ext header2.Filename)) with
      | false => simp
      | true =>
        exfalso
        cases he : file2.err with
        | none =>
          rw [handleFileUpload_ok table r2 key2 file2 header2 hp2 hle hx (Or.inl he)] at hres
          cases hres
        | some e =>
          cases e with
          | EOF =>
            rw [handleFileUpload_ok table r2 key2 file2 header2 hp2 hle hx (Or.inr he)] at hres
            cases hres
          | other msg =>
            rw [handleFileUpload_readError table r2 key2 file2 header2 hp2 hle hx msg he]
              at hres
            exact read_ne_type _ _ (Except.error.inj hres)
    · intro hx
      have hx2 : allowedExtensions (strings.ToLower table (filepath.Ext header2.Filename)) =
          false := by simpa using hx
      exact ⟨_, handleFileUpload_badType table r2 key2 file2 header2 hp2 hle hx2⟩
  refine ⟨verdict r formKey file header hp hs, ?_, ?_, ?_, rfl, rfl, rfl, rfl, rfl⟩
  · intro hx
    have hx2 : allowedExtensions (strings.ToLower table (filepath.Ext header.Filename)) =
        false := by
      rw [← allowedExtensions_iff] at hx
      simpa using hx
    exact handleFileUpload_badType table r formKey file header hp
      (by rw [MaxUploadSize_eq]; exact hs) hx2
  · intro pre suf h
    exact ⟨Ext_of_dot pre suf h, (Ext_of_noDot pre suf h).1, (Ext_of_noDot pre suf h).2⟩
  · intro r2 key2 file2 header2 hp2 hs2 hname
    rw [verdict r2 key2 file2 header2 hp2 hs2, verdict r formKey file header hp hs, hname]

/-- C4 at a concrete input: a ten-byte part named "cv.EXE" is refused with the
lower-cased extension in the text. -/
theorem handleFileUpload_type_iff_witness :
    (oneFileRequest (samplePart "cv.EXE" 10 [] 0)).FormFile "idFront" =
      .ok ({ content := [], chunk := 0, err := none }, { Filename := "cv.EXE", Size := 10 }) ∧
    (10 : Nat) ≤ 5242880 ∧
    handleFileUpload id (oneFileRequest (samplePart "cv.EXE" 10 [] 0)) "idFront" =
      .error "invalid file type: .exe" :=
  ⟨rfl, by decide,
   (handleFileUpload_type_iff id (oneFileRequest (samplePart "cv.EXE" 10 [] 0)) "idFront"
      { content := [], chunk := 0, err := none } { Filename := "cv.EXE", Size := 10 }
      rfl (by decide)).2.1 (by decide)⟩

/-! ## Base64: length and round trip -/

theorem decodeChar_encodeChar : ∀ i : Fin 64, decodeChar (encodeChar i.val) = some i.val := by
  decide

theorem encodeChar_ne_pad : ∀ i : Fin 64, encodeChar i.val ≠ padChar := by
  decide

theorem decodeChar_encodeChar_lt (i : Nat) (h : i < 64) :
    decodeChar (encodeChar i) = some i :=
  decodeChar_encodeChar ⟨i, h⟩

theorem encodeChar_ne_pad_lt (i : Nat) (h : i < 64) : encodeChar i ≠ padChar :=
  encodeChar_ne_pad ⟨i, h⟩

/-- The encoding of `n` bytes has `4 * ceil (n / 3)` characters. -/
theorem encode_length (src : List Byte) :
    (base64.encode src).length = 4 * ((src.length + 2) / 3) := by
  induction src using base64.encode.induct with
  | case1 b0 b1 b2 rest ih =>
    simp only [base64.encode, List.length_cons, ih]
    omega
  | case2 b0 b1 => simp [base64.encode]
  | case3 b0 => simp [base64.encode]
  | case4 => simp [base64.encode]

/-- Decoding the encoding of a byte sequence gives the sequence back. -/
theorem decode_encode (src : List Byte) : base64.decode (base64.encode src) = some src := by
  induction src using base64.encode.induct with
  | case1 b0 b1 b2 rest ih =>
    have h0 := b0.isLt
    have h1 := b1.isLt
    have h2 := b2.isLt
    simp only [base64.encode, base64.decode]
    rw [decodeChar_encodeChar_lt _ (Nat.mod_lt _ (by decide)),
      decodeChar_encodeChar_lt _ (Nat.mod_lt _ (by decide))]
    simp only [if_neg (encodeChar_ne_pad_lt _ (Nat.mod_lt _ (by decide)))]
    rw [decodeChar_encodeChar_lt _ (Nat.mod_lt _ (by decide))]
    simp only [if_neg (encodeChar_ne_pad_lt _ (Nat.mod_lt _ (by decide)))]
    rw [decodeChar_encodeChar_lt _ (Nat.mod_lt _ (by decide)), ih]
    simp only [Option.map_some', Option.some.injEq, List.cons.injEq, and_true]
    refine ⟨?_, ?_, ?_⟩ <;> apply Fin.ext <;> simp only [Fin.ofNat, Fin.val_mk] <;> omega
  | case2 b0 b1 =>
    have h0 := b0.isLt
    have h1 := b1.isLt
    simp only [base64.encode, base64.decode]
    rw [decodeChar_encodeChar_lt _ (Nat.mod_lt _ (by decide)),
      decodeChar_encodeChar_lt _ (Nat.mod_lt _ (by decide))]
    simp only [if_neg (encodeChar_ne_pad_lt _ (Nat.mod_lt _ (by decide)))]
    rw [decodeChar_encodeChar_lt _ (Nat.mod_lt _ (by decide))]
    simp only [if_true, Option.some.injEq, List.cons.injEq, and_true]
    refine ⟨?_, ?_⟩ <;> apply Fin.ext <;> simp only [Fin.ofNat, Fin.val_mk] <;> omega
  | case3 b0 =>
    have h0 := b0.isLt
    simp only [base64.encode, base64.decode]
    rw [decodeChar_encodeChar_lt _ (Nat.mod_lt _ (by decide)),
      decodeChar_encodeChar_lt _ (Nat.mod_lt _ (by decide))]
    simp only [and_self, if_true, Option.some.injEq, List.cons.injEq, and_true]
    apply Fin.ext
    simp only [Fin.ofNat, Fin.val_mk]
    omega
  | case4 => rfl

/-- C10: for an accepted upload declaring `s` bytes, the single read fills a
zeroed buffer of length `s` with the `n <= s` bytes it delivers; when it reports
no error or end-of-file the call succeeds with the Base64 encoding of those `n`
bytes followed by `s - n` zero bytes, so a short read is no error, and the
string returned has `4 * ceil (s / 3)` characters whatever `n` is. -/
theorem handleFileUpload_short_read (table : Char → Char) (r : Request) (formKey : String)
    (file : File) (header : FileHeader) (hp : r.FormFile formKey = .ok (file, header))
    (hs : header.Size ≤ 5242880)
    (hx : allowedExtensions (strings.ToLower table (filepath.Ext header.Filename)) = true)
    (he : file.err = none ∨ file.err = some .EOF) :
    ∃ n, n = min (min file.chunk header.Size) file.content.length ∧ n ≤ header.Size ∧
      file.Read (List.replicate header.Size 0) =
        (file.content.take n ++ List.replicate (header.Size - n) 0, n, file.err) ∧
      (file.content.take n ++ List.replicate (header.Size - n) (0 : Byte)).length =
        header.Size ∧
      handleFileUpload table r formKey =
        .ok (base64.StdEncoding.EncodeToString
          (file.content.take n ++ List.replicate (header.Size - n) 0)) ∧
      ∀ out, handleFileUpload table r formKey = .ok out →
        out.length = 4 * ((header.Size + 2) / 3) := by
  have hle : header.Size ≤ MaxUploadSize := by rw [MaxUploadSize_eq]; exact hs
  have hok := handleFileUpload_ok table r formKey file header hp hle hx he
  have hlen : (file.content.take (min (min file.chunk header.Size) file.content.length) ++
      List.replicate (header.Size - min (min file.chunk header.Size) file.content.length)
        (0 : Byte)).length = header.Size := by
    simp only [List.length_append, List.length_take, List.length_replicate]
    omega
  refine ⟨_, rfl, by omega, ?_, hlen, hok, ?_⟩
  · simp [File.Read]
  · intro out hout
    rw [hok] at hout
    have : out = base64.StdEncoding.EncodeToString
        (file.content.take (min (min file.chunk header.Size) file.content.length) ++
          List.replicate
            (header.Size - min (min file.chunk header.Size) file.content.length) 0) :=
      (Except.ok.inj hout).symm
    rw [this]
    show (base64.encode _).length = _
    rw [encode_length, hlen]

/-- C10 at a concrete input: a part "id.png" declaring four bytes whose read
delivers two of them is accepted, and the text encodes the two bytes and two
zero bytes. -/
theorem handleFileUpload_short_read_witness :
    (oneFileRequest (samplePart "id.png" 4 [77, 97, 110, 33] 2)).FormFile "idFront" =
      .ok ({ content := [77, 97, 110, 33], chunk := 2, err := none },
        { Filename := "id.png", Size := 4 }) ∧
    (∃ n, n = 2 ∧ n ≤ 4 ∧
      handleFileUpload id (oneFileRequest (samplePart "id.png" 4 [77, 97, 110, 33] 2))
        "idFront" = .ok "TWEAAA==" ∧
      base64.StdEncoding.EncodeToString [77, 97, 0, 0] = "TWEAAA==") := by
  refine ⟨rfl, ?_⟩
  obtain ⟨n, hn, hle, _, _, hok, _⟩ :=
    handleFileUpload_short_read id
      (oneFileRequest (samplePart "id.png" 4 [77, 97, 110, 33] 2)) "idFront"
      { content := [77, 97, 110, 33], chunk := 2, err := none }
      { Filename := "id.png", Size := 4 } rfl (by decide) (by decide) (Or.inl rfl)
  have hn2 : n = 2 := by rw [hn]; decide
  subst hn2
  exact ⟨2, rfl, hle, hok, by decide⟩

/-- C5: round-trip fidelity.  For every upload that `handleFileUpload` accepts,
where the header declares the length of the content, as the multipart parser
sets it, and the read hands over all of the content in one call, as the
section readers `FormFile` returns do, the text returned is the Base64
encoding of the content, and decoding it (standard alphabet, with padding)
yields exactly the bytes uploaded, nothing added and nothing lost. -/
theorem handleFileUpload_roundtrip (table : Char → Char) (r : Request)
    (formKey : String) (file : File) (header : FileHeader)
    (hp : r.FormFile formKey = .ok (file, header))
    (hsize : header.Size = file.content.length) (hfull : file.content.length ≤ file.chunk)
    (out : String) (hout : handleFileUpload table r formKey = .ok out) :
    out = base64.StdEncoding.EncodeToString file.content ∧
    base64.StdEncoding.DecodeString out = some file.content ∧
    ∀ bytes, base64.StdEncoding.DecodeString out = some bytes →
      bytes = file.content ∧ bytes.length = header.Size := by
  have hle : header.Size ≤ MaxUploadSize := by
    by_contra hgt
    rw [handleFileUpload_tooLarge table r formKey file header hp (by omega)] at hout
    cases hout
  have hx : allowedExtensions (strings.ToLower table (filepath.Ext header.Filename)) = true := by
    cases hx : allowedExtensions (strings.ToLower table (filepath.Ext header.Filename)) with
    | true => rfl
    | false =>
      rw [handleFileUpload_badType table r formKey file header hp hle hx] at hout
      cases hout
  have he : file.err = none ∨ file.err = some .EOF := by
    cases he : file.err with
    | none => exact Or.inl rfl
    | some e =>
      cases e with
      | EOF => exact Or.inr rfl
      | other msg =>
        rw [handleFileUpload_readError table r formKey file header hp hle hx msg he] at hout
        cases hout
  rw [handleFileUpload_ok table r formKey file header hp hle hx he] at hout
  have hn : min (min file.chunk header.Size) file.content.length = file.content.length := by
    omega
  rw [hn, hsize] at hout
  simp only [Nat.sub_self, List.replicate_zero, List.append_nil, List.take_length] at hout
  have hout2 : out = base64.StdEncoding.EncodeToString file.content := (Except.ok.inj hout).symm
  have hdec : base64.StdEncoding.DecodeString out = some file.content := by
    rw [hout2]
    exact decode_encode file.content
  refine ⟨hout2, hdec, ?_⟩
  intro bytes hb
  rw [hdec] at hb
  have : bytes = file.content := (Option.some.inj hb).symm
  exact ⟨this, by rw [this, hsize]⟩

/-- C5 at a concrete input: "cv.jpg" holds the bytes 1, 2, 3, its header
declares three bytes and the read delivers them all; the text returned is
"AQID" and decodes to 1, 2, 3. -/
theorem handleFileUpload_roundtrip_witness :
    (oneFileRequest (samplePart "cv.jpg" 3 [1, 2, 3] 3)).FormFile "idFront" =
      .ok ({ content := [1, 2, 3], chunk := 3, err := none },
        { Filename := "cv.jpg", Size := 3 }) ∧
    handleFileUpload id (oneFileRequest (samplePart "cv.jpg" 3 [1, 2, 3] 3)) "idFront" =
      .ok "AQID" ∧
    base64.StdEncoding.DecodeString "AQID" = some [1, 2, 3] :=
  ⟨rfl, by decide,
   (handleFileUpload_roundtrip id (oneFileRequest (samplePart "cv.jpg" 3 [1, 2, 3] 3))
      "idFront" { content := [1, 2, 3], chunk := 3, err := none }
      { Filename := "cv.jpg", Size := 3 } rfl rfl (by decide) "AQID" (by decide)).2.1⟩

/-! ## The store -/

/-- What `insertUserIntoMongo` returns and leaves behind, by the answers of the driver. -/
theorem insertUserIntoMongo_cases (user : User) (world : World) :
    (∀ err, world.connectErr = some err →
      insertUserIntoMongo user world =
        (some ("failed to connect to MongoDB: " ++ err), world.record .Connect)) ∧
    (∀ err, world.connectErr = none → world.insertErr = some err →
      insertUserIntoMongo user world =
        (some ("failed to insert user: " ++ err),
          (world.record .Connect).record (.InsertOne (insertUserIntoMongo.doc user)))) ∧
    (world.connectErr = none → world.insertErr = none →
      insertUserIntoMongo user world =
        (none,
          { (world.record .Connect).record (.InsertOne (insertUserIntoMongo.doc user)) with
            applications := world.applications ++ [insertUserIntoMongo.doc user] })) := by
  refine ⟨?_, ?_, ?_⟩
  · intro err h
    simp [insertUserIntoMongo, World.record, h]
  · intro err h1 h2
    simp [insertUserIntoMongo, World.record, h1, h2]
  · intro h1 h2
    simp [insertUserIntoMongo, World.record, h1, h2]

/-- A failed call of `insertUserIntoMongo` stores nothing. -/
theorem insertUserIntoMongo_error_keeps (user : User) (world : World) (err : String)
    (h : (insertUserIntoMongo user world).1 = some err) :
    (insertUserIntoMongo user world).2.applications = world.applications := by
  obtain ⟨h1, h2, h3⟩ := insertUserIntoMongo_cases user world
  cases hc : world.connectErr with
  | some e => rw [h1 e hc]; rfl
  | none =>
    cases hi : world.insertErr with
    | some e => rw [h2 e hc hi]; rfl
    | none => rw [h3 hc hi] at h; cases h

/-- The document as a list: the eight fixed pairs, then the note if there is one. -/
theorem insertUserIntoMongo_doc_eq (user : User) :
    insertUserIntoMongo.doc user =
      [("name", user.Name), ("email", user.Email), ("phone_number", user.PhoneNumber),
        ("city", user.City), ("job_title", user.JobTitle),
        ("identity_doc_front", user.IdentityDocFront),
        ("identity_doc_back", user.IdentityDocBack),
        ("selfie_with_doc", user.SelfieWithDoc)] ++
      (if user.Note = "" then [] else [("notes", user.Note)]) := by
  by_cases hn : user.Note = ""
  · simp [insertUserIntoMongo.doc, hn]
  · simp [insertUserIntoMongo.doc, hn, Doc.set, List.filter]

/-- C7: the document built by `insertUserIntoMongo` maps the eight keys name,
email, phone_number, city, job_title, identity_doc_front, identity_doc_back and
selfie_with_doc to the fields of the record unchanged; it holds the key "notes",
mapped to the note, exactly when the note is not the empty string; it holds no
other key and no key twice; and it is the document handed to `InsertOne` and
added to the collection. -/
theorem insertUserIntoMongo_doc_fields (user : User) :
    (insertUserIntoMongo.doc user).lookup "name" = some user.Name ∧
    (insertUserIntoMongo.doc user).lookup "email" = some user.Email ∧
    (insertUserIntoMongo.doc user).lookup "phone_number" = some user.PhoneNumber ∧
    (insertUserIntoMongo.doc user).lookup "city" = some user.City ∧
    (insertUserIntoMongo.doc user).lookup "job_title" = some user.JobTitle ∧
    (insertUserIntoMongo.doc user).lookup "identity_doc_front" = some user.IdentityDocFront ∧
    (insertUserIntoMongo.doc user).lookup "identity_doc_back" = some user.IdentityDocBack ∧
    (insertUserIntoMongo.doc user).lookup "selfie_with_doc" = some user.SelfieWithDoc ∧
    ("notes" ∈ (insertUserIntoMongo.doc user).map Prod.fst ↔ user.Note ≠ "") ∧
    (user.Note ≠ "" → (insertUserIntoMongo.doc user).lookup "notes" = some user.Note) ∧
    (user.Note = "" → (insertUserIntoMongo.doc user).lookup "notes" = none) ∧
    (∀ key ∈ (insertUserIntoMongo.doc user).map Prod.fst,
      key ∈ ["name", "email", "phone_number", "city", "job_title", "identity_doc_front",
        "identity_doc_back", "selfie_with_doc", "notes"]) ∧
    ((insertUserIntoMongo.doc user).map Prod.fst).Nodup ∧
    (∀ world : World, world.connectErr = none → world.insertErr = none →
      (insertUserIntoMongo user world).1 = none ∧
      (insertUserIntoMongo user world).2.applications =
        world.applications ++ [insertUserIntoMongo.doc user] ∧
      (insertUserIntoMongo user world).2.trace =
        world.trace ++ [.Connect, .InsertOne (insertUserIntoMongo.doc user)]) := by
  have hlast : ∀ world : World, world.connectErr = none → world.insertErr = none →
      (insertUserIntoMongo user world).1 = none ∧
      (insertUserIntoMongo user world).2.applications =
        world.applications ++ [insertUserIntoMongo.doc user] ∧
      (insertUserIntoMongo user world).2.trace =
        world.trace ++ [.Connect, .InsertOne (insertUserIntoMongo.doc user)] := by
    intro world h1 h2
    rw [(insertUserIntoMongo_cases user world).2.2 h1 h2]
    simp [World.record]
  by_cases hn : user.Note = ""
  · refine ⟨?_, ?_, ?_, ?_, ?_, ?_, ?_, ?_, ?_, ?_, ?_, ?_, ?_, hlast⟩ <;>
      simp [insertUserIntoMongo_doc_eq, hn, List.lookup]
  · refine ⟨?_, ?_, ?_, ?_, ?_, ?_, ?_, ?_, ?_, ?_, ?_, ?_, ?_, hlast⟩ <;>
      simp [insertUserIntoMongo_doc_eq, hn, List.lookup]

/-! ## The submission handler, stage by stage -/

theorem http_Error_fresh (error : String) (code : Nat) :
    http.Error (({} : ResponseWriter).Set "Content-Type" "application/json") error code =
      errorResponse error code := by
  rfl

theorem handleFormSubmission_method (table : Char → Char) (r : Request) (world : World)
    (hm : r.Method ≠ "POST") :
    handleFormSubmission table {} r world =
      (errorResponse (messageBody "Method not allowed") 405, world) := by
  have : (r.Method != http.MethodPost) = true := by simpa [http.MethodPost] using hm
  simp only [handleFormSubmission, this, if_true, http_Error_fresh]
  rfl

theorem handleFormSubmission_parse (table : Char → Char) (r : Request) (world : World)
    (hm : r.Method = "POST") (err : String) (hp : r.ParseMultipartForm = .error err) :
    handleFormSubmission table {} r world =
      (errorResponse (messageBody "File is too large") 413,
        world.record .ParseMultipartForm) := by
  have : (r.Method != http.MethodPost) = false := by simp [http.MethodPost, hm]
  simp only [handleFormSubmission, this, hp, http_Error_fresh]
  rfl

theorem handleFormSubmission_front (table : Char → Char) (r r1 : Request) (world : World)
    (hm : r.Method = "POST") (hp : r.ParseMultipartForm = .ok r1) (err : String)
    (h1 : handleFileUpload table r1 "idFront" = .error err) :
    handleFormSubmission table {} r world =
      (errorResponse (messageBody err) 400, world.afterUploads ["idFront"]) := by
  have : (r.Method != http.MethodPost) = false := by simp [http.MethodPost, hm]
  simp only [handleFormSubmission, this, hp, h1, http_Error_fresh]
  simp [World.afterUploads, World.record, messageBody, http.StatusBadRequest]

theorem handleFormSubmission_back (table : Char → Char) (r r1 : Request) (world : World)
    (hm : r.Method = "POST") (hp : r.ParseMultipartForm = .ok r1) (front err : String)
    (h1 : handleFileUpload table r1 "idFront" = .ok front)
    (h2 : handleFileUpload table r1 "idBack" = .error err) :
    handleFormSubmission table {} r world =
      (errorResponse (messageBody err) 400, world.afterUploads ["idFront", "idBack"]) := by
  have : (r.Method != http.MethodPost) = false := by simp [http.MethodPost, hm]
  simp only [handleFormSubmission, this, hp, h1, h2, http_Error_fresh]
  simp [World.afterUploads, World.record, messageBody, http.StatusBadRequest]

theorem handleFormSubmission_selfie (table : Char → Char) (r r1 : Request) (world : World)
    (hm : r.Method = "POST") (hp : r.ParseMultipartForm = .ok r1) (front back err : String)
    (h1 : handleFileUpload table r1 "idFront" = .ok front)
    (h2 : handleFileUpload table r1 "idBack" = .ok back)
    (h3 : handleFileUpload table r1 "selfieWithId" = .error err) :
    handleFormSubmission table {} r world =
      (errorResponse (messageBody err) 400,
        world.afterUploads ["idFront", "idBack", "selfieWithId"]) := by
  have : (r.Method != http.MethodPost) = false := by simp [http.MethodPost, hm]
  simp only [handleFormSubmission, this, hp, h1, h2, h3, http_Error_fresh]
  simp [World.afterUploads, World.record, messageBody, http.StatusBadRequest]

theorem handleFormSubmission_store (table : Char → Char) (r r1 : Request) (world : World)
    (hm : r.Method = "POST") (hp : r.ParseMultipartForm = .ok r1) (front back selfie : String)
    (h1 : handleFileUpload table r1 "idFront" = .ok front)
    (h2 : handleFileUpload table r1 "idBack" = .ok back)
    (h3 : handleFileUpload table r1 "selfieWithId" = .ok selfie) :
    handleFormSubmission table {} r world =
      match insertUserIntoMongo (submittedUser r1 front back selfie)
          ((world.afterUploads ["idFront", "idBack", "selfieWithId"]).record
            (.insertUserIntoMongo (submittedUser r1 front back selfie))) with
      | (some _, world) => (errorResponse (messageBody "Error storing user data") 500, world)
      | (none, world) =>
        ({ header := [("Content-Type", "application/json")], status := some 201,
           body := "\x7b\"message\":\"Application submitted successfully\"\x7d\n" }, world) := by
  have : (r.Method != http.MethodPost) = false := by simp [http.MethodPost, hm]
  simp only [handleFormSubmission, this, hp, h1, h2, h3, http_Error_fresh]
  have hw : (((((world.record .ParseMultipartForm).record (.handleFileUpload "idFront")).record
      (.handleFileUpload "idBack")).record (.handleFileUpload "selfieWithId"))) =
      world.afterUploads ["idFront", "idBack", "selfieWithId"] := by
    simp [World.afterUploads, World.record]
  simp only [Bool.false_eq_true, if_false]
  rw [hw]
  rfl

/-- An absent part makes `handleFileUpload` fail with the missing-file error. -/
theorem handleFileUpload_missing (table : Char → Char) (r : Request) (form : MultipartForm)
    (formKey : String) (hf : r.MultipartForm = some form)
    (hk : form.File.lookup formKey = none) :
    handleFileUpload table r formKey = .error "failed to get file: http: no such file" := by
  simp [handleFileUpload, Request.FormFile, hf, MultipartForm.firstFile, hk, ErrMissingFile]

/-- C1: when the multipart body of a POST request parses and `handleFileUpload`
fails for one of idFront, idBack, selfieWithId (an absent part is such a
failure), the response has status 400 and its body is the message object with
the error text of the first failing field, then the newline `http.Error`
prints; the trace shows the validator called for the fields up to the failing
one and for no later field, and no call of `insertUserIntoMongo`, `Connect` or
`InsertOne`; the collection is unchanged. -/
theorem handleFormSubmission_upload_failure (table : Char → Char) (r r1 : Request)
    (world : World) (hm : r.Method = "POST") (hp : r.ParseMultipartForm = .ok r1) :
    (∀ err, handleFileUpload table r1 "idFront" = .error err →
      (handleFormSubmission table {} r world).1.code = 400 ∧
      (handleFormSubmission table {} r world).1.body =
        "\x7b\"message\": \"" ++ err ++ "\"\x7d" ++ "\n" ∧
      (handleFormSubmission table {} r world).2.trace =
        world.trace ++ [.ParseMultipartForm, .handleFileUpload "idFront"] ∧
      (handleFormSubmission table {} r world).2.applications = world.applications) ∧
    (∀ front err, handleFileUpload table r1 "idFront" = .ok front →
      handleFileUpload table r1 "idBack" = .error err →
      (handleFormSubmission table {} r world).1.code = 400 ∧
      (handleFormSubmission table {} r world).1.body =
        "\x7b\"message\": \"" ++ err ++ "\"\x7d" ++ "\n" ∧
      (handleFormSubmission table {} r world).2.trace =
        world.trace ++
          [.ParseMultipartForm, .handleFileUpload "idFront", .handleFileUpload "idBack"] ∧
      (handleFormSubmission table {} r world).2.applications = world.applications) ∧
    (∀ front back err, handleFileUpload table r1 "idFront" = .ok front →
      handleFileUpload table r1 "idBack" = .ok back →
      handleFileUpload table r1 "selfieWithId" = .error err →
      (handleFormSubmission table {} r world).1.code = 400 ∧
      (handleFormSubmission table {} r world).1.body =
        "\x7b\"message\": \"" ++ err ++ "\"\x7d" ++ "\n" ∧
      (handleFormSubmission table {} r world).2.trace =
        world.trace ++
          [.ParseMultipartForm, .handleFileUpload "idFront", .handleFileUpload "idBack",
            .handleFileUpload "selfieWithId"] ∧
      (handleFormSubmission table {} r world).2.applications = world.applications) ∧
    (∀ form formKey, r1.MultipartForm = some form → form.File.lookup formKey = none →
      handleFileUpload table r1 formKey = .error "failed to get file: http: no such file") := by
  refine ⟨?_, ?_, ?_, ?_⟩
  · intro err h1
    rw [handleFormSubmission_front table r r1 world hm hp err h1]
    exact ⟨rfl, rfl, rfl, rfl⟩
  · intro front err h1 h2
    rw [handleFormSubmission_back table r r1 world hm hp front err h1 h2]
    exact ⟨rfl, rfl, rfl, rfl⟩
  · intro front back err h1 h2 h3
    rw [handleFormSubmission_selfie table r r1 world hm hp front back err h1 h2 h3]
    exact ⟨rfl, rfl, rfl, rfl⟩
  · intro form formKey hf hk
    exact handleFileUpload_missing table r1 form formKey hf hk

/-- C1 at a concrete input: a submission with a valid idFront and no idBack is
answered 400 with the missing-file text, after two validator calls and no call
to the store. -/
theorem handleFormSubmission_upload_failure_witness :
    frontOnlyRequest.Method = "POST" ∧
    frontOnlyRequest.ParseMultipartForm = .ok frontOnlyParsed ∧
    handleFileUpload id frontOnlyParsed "idFront" = .ok "AQID" ∧
    handleFileUpload id frontOnlyParsed "idBack" =
      .error "failed to get file: http: no such file" ∧
    (handleFormSubmission id {} frontOnlyRequest {}).1.code = 400 ∧
    (handleFormSubmission id {} frontOnlyRequest {}).1.body =
      "\x7b\"message\": \"failed to get file: http: no such file\"\x7d\n" ∧
    (handleFormSubmission id {} frontOnlyRequest {}).2.trace =
      [.ParseMultipartForm, .handleFileUpload "idFront", .handleFileUpload "idBack"] ∧
    (handleFormSubmission id {} frontOnlyRequest {}).2.applications = [] :=
  ⟨rfl, rfl, by decide, by decide,
    (handleFormSubmission_upload_failure id frontOnlyRequest frontOnlyParsed {} rfl rfl).2.1
      "AQID" "failed to get file: http: no such file" (by decide) (by decide)⟩

/-! ## Status codes -/

theorem handleGetAllUsers_method (quote : String → String) (r : Request) (world : World)
    (hm : r.Method ≠ "GET") :
    handleGetAllUsers quote {} r world = (http.Error {} "Method not allowed" 405, world) := by
  have : (r.Method != http.MethodGet) = true := by simpa [http.MethodGet] using hm
  simp only [handleGetAllUsers, this, if_true]
  rfl

/-- With the three uploads valid, the status is 500 when `insertUserIntoMongo`
returns an error and 201 when it returns none. -/
theorem handleFormSubmission_store_code (table : Char → Char) (r r1 : Request) (world : World)
    (hm : r.Method = "POST") (hp : r.ParseMultipartForm = .ok r1) (front back selfie : String)
    (h1 : handleFileUpload table r1 "idFront" = .ok front)
    (h2 : handleFileUpload table r1 "idBack" = .ok back)
    (h3 : handleFileUpload table r1 "selfieWithId" = .ok selfie) :
    (∀ err, (insertUserIntoMongo (submittedUser r1 front back selfie)
        ((world.afterUploads ["idFront", "idBack", "selfieWithId"]).record
          (.insertUserIntoMongo (submittedUser r1 front back selfie)))).1 = some err →
      (handleFormSubmission table {} r world).1.code = 500) ∧
    ((insertUserIntoMongo (submittedUser r1 front back selfie)
        ((world.afterUploads ["idFront", "idBack", "selfieWithId"]).record
          (.insertUserIntoMongo (submittedUser r1 front back selfie)))).1 = none →
      (handleFormSubmission table {} r world).1.code = 201) := by
  rw [handleFormSubmission_store table r r1 world hm hp front back selfie h1 h2 h3]
  generalize insertUserIntoMongo (submittedUser r1 front back selfie)
    ((world.afterUploads ["idFront", "idBack", "selfieWithId"]).record
      (.insertUserIntoMongo (submittedUser r1 front back selfie))) = res
  obtain ⟨e, w2⟩ := res
  cases e with
  | none => exact ⟨fun err h => (by cases h), fun _ => rfl⟩
  | some e => exact ⟨fun _ _ => rfl, fun h => (by cases h)⟩

/-- C6: the status of `handleFormSubmission` is that of the first failing stage:
405 when the method is not POST, with nothing parsed, validated or stored;
413 when the method is POST and parsing the body fails; 400 when the body
parses and a file validator fails; 500 when the three validators succeed and
`insertUserIntoMongo` returns an error; and it is 201 exactly when every stage
succeeds.  `handleGetAllUsers` answers a method other than GET with 405 and
calls nothing. -/
theorem handleFormSubmission_status (table : Char → Char) (quote : String → String)
    (r : Request) (world : World) :
    (r.Method ≠ "POST" →
      (handleFormSubmission table {} r world).1.code = 405 ∧
      (handleFormSubmission table {} r world).2 = world) ∧
    (r.Method = "POST" → ∀ err, r.ParseMultipartForm = .error err →
      (handleFormSubmission table {} r world).1.code = 413 ∧
      (handleFormSubmission table {} r world).2 = world.record .ParseMultipartForm) ∧
    (r.Method = "POST" → ∀ r1, r.ParseMultipartForm = .ok r1 →
      (∃ formKey ∈ ["idFront", "idBack", "selfieWithId"],
        ∃ err, handleFileUpload table r1 formKey = .error err) →
      (handleFormSubmission table {} r world).1.code = 400) ∧
    (r.Method = "POST" → ∀ r1 front back selfie err, r.ParseMultipartForm = .ok r1 →
      handleFileUpload table r1 "idFront" = .ok front →
      handleFileUpload table r1 "idBack" = .ok back →
      handleFileUpload table r1 "selfieWithId" = .ok selfie →
      (insertUserIntoMongo (submittedUser r1 front back selfie)
        ((world.afterUploads ["idFront", "idBack", "selfieWithId"]).record
          (.insertUserIntoMongo (submittedUser r1 front back selfie)))).1 = some err →
      (handleFormSubmission table {} r world).1.code = 500) ∧
    ((handleFormSubmission table {} r world).1.code = 201 ↔
      r.Method = "POST" ∧ ∃ r1 front back selfie, r.ParseMultipartForm = .ok r1 ∧
        handleFileUpload table r1 "idFront" = .ok front ∧
        handleFileUpload table r1 "idBack" = .ok back ∧
        handleFileUpload table r1 "selfieWithId" = .ok selfie ∧
        (insertUserIntoMongo (submittedUser r1 front back selfie)
          ((world.afterUploads ["idFront", "idBack", "selfieWithId"]).record
            (.insertUserIntoMongo (submittedUser r1 front back selfie)))).1 = none) ∧
    (r.Method ≠ "GET" →
      (handleGetAllUsers quote {} r world).1.code = 405 ∧
      (handleGetAllUsers quote {} r world).2 = world) := by
  have h400 : r.Method = "POST" → ∀ r1, r.ParseMultipartForm = .ok r1 →
      (∃ formKey ∈ ["idFront", "idBack", "selfieWithId"],
        ∃ err, handleFileUpload table r1 formKey = .error err) →
      (handleFormSubmission table {} r world).1.code = 400 := by
    intro hm r1 hp hfail
    cases h1 : handleFileUpload table r1 "idFront" with
    | error e1 => rw [handleFormSubmission_front table r r1 world hm hp e1 h1]; rfl
    | ok front =>
      cases h2 : handleFileUpload table r1 "idBack" with
      | error e2 => rw [handleFormSubmission_back table r r1 world hm hp front e2 h1 h2]; rfl
      | ok back =>
        cases h3 : handleFileUpload table r1 "selfieWithId" with
        | error e3 =>
          rw [handleFormSubmission_selfie table r r1 world hm hp front back e3 h1 h2 h3]; rfl
        | ok selfie =>
          exfalso
          obtain ⟨formKey, hmem, err, herr⟩ := hfail
          simp only [List.mem_cons, List.mem_singleton, List.mem_nil_iff, or_false] at hmem
          rcases hmem with rfl | rfl | rfl
          · rw [h1] at herr; cases herr
          · rw [h2] at herr; cases herr
          · rw [h3] at herr; cases herr
  refine ⟨?_, ?_, h400, ?_, ?_, ?_⟩
  · intro hm
    rw [handleFormSubmission_method table r world hm]
    exact ⟨rfl, rfl⟩
  · intro hm err hp
    rw [handleFormSubmission_parse table r world hm err hp]
    exact ⟨rfl, rfl⟩
  · intro hm r1 front back selfie err hp h1 h2 h3 hins
    exact (handleFormSubmission_store_code table r r1 world hm hp front back selfie
      h1 h2 h3).1 err hins
  · constructor
    · intro hcode
      by_cases hm : r.Method = "POST"
      · refine ⟨hm, ?_⟩
        cases hp : r.ParseMultipartForm with
        | error e =>
          rw [handleFormSubmission_parse table r world hm e hp] at hcode
          simp [errorResponse, ResponseWriter.code] at hcode
        | ok r1 =>
          cases h1 : handleFileUpload table r1 "idFront" with
          | error e1 =>
            rw [h400 hm r1 hp ⟨"idFront", by simp, e1, h1⟩] at hcode
            exact absurd hcode (by decide)
          | ok front =>
            cases h2 : handleFileUpload table r1 "idBack" with
            | error e2 =>
              rw [h400 hm r1 hp ⟨"idBack", by simp, e2, h2⟩] at hcode
              exact absurd hcode (by decide)
            | ok back =>
              cases h3 : handleFileUpload table r1 "selfieWithId" with
              | error e3 =>
                rw [h400 hm r1 hp ⟨"selfieWithId", by simp, e3, h3⟩] at hcode
                exact absurd hcode (by decide)
              | ok selfie =>
                refine ⟨r1, front, back, selfie, rfl, h1, h2, h3, ?_⟩
                cases hins : (insertUserIntoMongo (submittedUser r1 front back selfie)
                    ((world.afterUploads ["idFront", "idBack", "selfieWithId"]).record
                      (.insertUserIntoMongo (submittedUser r1 front back selfie)))).1 with
                | none => rfl
                | some e =>
                  rw [(handleFormSubmission_store_code table r r1 world hm hp front back selfie
                    h1 h2 h3).1 e hins] at hcode
                  exact absurd hcode (by decide)
      · rw [handleFormSubmission_method table r world hm] at hcode
        simp [errorResponse, ResponseWriter.code] at hcode
    · rintro ⟨hm, r1, front, back, selfie, hp, h1, h2, h3, hins⟩
      exact (handleFormSubmission_store_code table r r1 world hm hp front back selfie
        h1 h2 h3).2 hins
  · intro hm
    rw [handleGetAllUsers_method quote r world hm]
    exact ⟨rfl, rfl⟩

/-- C6 at concrete inputs: a GET sent to the submission handler and a POST sent
to the listing handler are answered 405 and leave the world as it was. -/
theorem handleFormSubmission_status_witness :
    (handleFormSubmission id {} listRequest {}).1.code = 405 ∧
    (handleFormSubmission id {} listRequest {}).2 = {} ∧
    (handleGetAllUsers id {} fullRequest {}).1.code = 405 ∧
    (handleGetAllUsers id {} fullRequest {}).2 = {} :=
  ⟨((handleFormSubmission_status id id listRequest {}).1 (by decide)).1,
   ((handleFormSubmission_status id id listRequest {}).1 (by decide)).2,
   ((handleFormSubmission_status id id fullRequest {}).2.2.2.2.2 (by decide)).1,
   ((handleFormSubmission_status id id fullRequest {}).2.2.2.2.2 (by decide)).2⟩

/-! ## Valid submissions -/

theorem EncodeToString_eq_empty (src : List Byte) :
    base64.StdEncoding.EncodeToString src = "" ↔ src.length = 0 := by
  constructor
  · intro h
    have h2 : (base64.encode src).length = 0 := by
      have := congrArg String.length h
      simpa [base64.StdEncoding.EncodeToString] using this
    rw [encode_length] at h2
    omega
  · intro h
    have : src = [] := List.length_eq_zero.mp h
    subst this
    rfl

theorem Read_buffer_length (file : File) (size : Nat) :
    (file.Read (List.replicate size 0)).1.length = size := by
  simp only [File.Read, List.length_append, List.length_take, List.length_drop,
    List.length_replicate]
  omega

/-- An accepted upload returns the encoding of the buffer its read filled. -/
theorem handleFileUpload_accepts (table : Char → Char) (r : Request) (formKey : String)
    (file : File) (header : FileHeader) (hp : r.FormFile formKey = .ok (file, header))
    (h : header.Size ≤ 5242880)
    (hx : strings.ToLower table (filepath.Ext header.Filename) ∈ [".jpg", ".png", ".pdf"])
    (he : file.err = none ∨ file.err = some .EOF) :
    handleFileUpload table r formKey =
      .ok (base64.StdEncoding.EncodeToString (file.Read (List.replicate header.Size 0)).1) := by
  rw [handleFileUpload_ok table r formKey file header hp (by rw [MaxUploadSize_eq]; exact h)
    ((allowedExtensions_iff _).mpr hx) he]
  simp [File.Read]

/-- C2 as stated fails: a POST submission with three files that pass validation
and no text field is answered 201, and the one record it stores has an empty
name, email, phone number, city and job title, and an empty selfie.  A
complete submission is answered 500, with nothing stored, when the store
refuses the connection, and 400 when the read of a file reports an error. -/
theorem handleFormSubmission_blank_fields :
    blankRequest.Method = "POST" ∧
    (handleFormSubmission id {} blankRequest {}).1.code = 201 ∧
    (handleFormSubmission id {} blankRequest {}).2.applications =
      [[("name", ""), ("email", ""), ("phone_number", ""), ("city", ""), ("job_title", ""),
        ("identity_doc_front", "AQID"), ("identity_doc_back", "AQ=="),
        ("selfie_with_doc", "")]] ∧
    (handleFormSubmission id {} fullRequest { connectErr := some "no reachable servers" }).1.code
      = 500 ∧
    (handleFormSubmission id {} fullRequest
      { connectErr := some "no reachable servers" }).2.applications = [] ∧
    (handleFormSubmission id {} unreadableRequest {}).1.code = 400 ∧
    (handleFormSubmission id {} unreadableRequest {}).2.applications = [] := by
  refine ⟨rfl, by decide, by decide, by decide, by decide, by decide, by decide⟩

/-- C2, amended: for a POST submission whose body parses, with the three files
present, each with an allowed lower-cased extension, a declared size of at
most 5242880 and a read that reports no error other than end-of-file, and with
a store that accepts the connection and the insert, `handleFormSubmission`
answers 201 and adds exactly one document to the collection.  The document
holds the five text fields as submitted, the three Base64 texts of the buffers
read, and the note only when it is not empty.  A text field is empty when it
was submitted empty or not at all, and an upload text is empty exactly when
the declared size is 0. -/
theorem handleFormSubmission_valid (table : Char → Char) (r r1 : Request) (world : World)
    (f1 f2 f3 : File) (d1 d2 d3 : FileHeader)
    (hm : r.Method = "POST") (hp : r.ParseMultipartForm = .ok r1)
    (p1 : r1.FormFile "idFront" = .ok (f1, d1))
    (p2 : r1.FormFile "idBack" = .ok (f2, d2))
    (p3 : r1.FormFile "selfieWithId" = .ok (f3, d3))
    (s1 : d1.Size ≤ 5242880) (s2 : d2.Size ≤ 5242880) (s3 : d3.Size ≤ 5242880)
    (x1 : strings.ToLower table (filepath.Ext d1.Filename) ∈ [".jpg", ".png", ".pdf"])
    (x2 : strings.ToLower table (filepath.Ext d2.Filename) ∈ [".jpg", ".png", ".pdf"])
    (x3 : strings.ToLower table (filepath.Ext d3.Filename) ∈ [".jpg", ".png", ".pdf"])
    (e1 : f1.err = none ∨ f1.err = some .EOF)
    (e2 : f2.err = none ∨ f2.err = some .EOF)
    (e3 : f3.err = none ∨ f3.err = some .EOF)
    (hc : world.connectErr = none) (hi : world.insertErr = none) :
    (handleFormSubmission table {} r world).1.code = 201 ∧
    (handleFormSubmission table {} r world).2.applications =
      world.applications ++ [insertUserIntoMongo.doc (submittedUser r1
        (base64.StdEncoding.EncodeToString (f1.Read (List.replicate d1.Size 0)).1)
        (base64.StdEncoding.EncodeToString (f2.Read (List.replicate d2.Size 0)).1)
        (base64.StdEncoding.EncodeToString (f3.Read (List.replicate d3.Size 0)).1))] ∧
    (∀ doc, doc = insertUserIntoMongo.doc (submittedUser r1
        (base64.StdEncoding.EncodeToString (f1.Read (List.replicate d1.Size 0)).1)
        (base64.StdEncoding.EncodeToString (f2.Read (List.replicate d2.Size 0)).1)
        (base64.StdEncoding.EncodeToString (f3.Read (List.replicate d3.Size 0)).1)) →
      doc.lookup "name" = some (r1.FormValue "fullName") ∧
      doc.lookup "email" = some (r1.FormValue "email") ∧
      doc.lookup "phone_number" = some (r1.FormValue "phone") ∧
      doc.lookup "city" = some (r1.FormValue "city") ∧
      doc.lookup "job_title" = some (r1.FormValue "jobRole") ∧
      doc.lookup "identity_doc_front" =
        some (base64.StdEncoding.EncodeToString (f1.Read (List.replicate d1.Size 0)).1) ∧
      doc.lookup "identity_doc_back" =
        some (base64.StdEncoding.EncodeToString (f2.Read (List.replicate d2.Size 0)).1) ∧
      doc.lookup "selfie_with_doc" =
        some (base64.StdEncoding.EncodeToString (f3.Read (List.replicate d3.Size 0)).1) ∧
      ("notes" ∈ doc.map Prod.fst ↔ r1.FormValue "notes" ≠ "")) ∧
    (base64.StdEncoding.EncodeToString (f1.Read (List.replicate d1.Size 0)).1 = "" ↔
      d1.Size = 0) ∧
    (base64.StdEncoding.EncodeToString (f2.Read (List.replicate d2.Size 0)).1 = "" ↔
      d2.Size = 0) ∧
    (base64.StdEncoding.EncodeToString (f3.Read (List.replicate d3.Size 0)).1 = "" ↔
      d3.Size = 0) := by
  have h1 := handleFileUpload_accepts table r1 "idFront" f1 d1 p1 s1 x1 e1
  have h2 := handleFileUpload_accepts table r1 "idBack" f2 d2 p2 s2 x2 e2
  have h3 := handleFileUpload_accepts table r1 "selfieWithId" f3 d3 p3 s3 x3 e3
  have hres := handleFormSubmission_store table r r1 world hm hp _ _ _ h1 h2 h3
  have hins := (insertUserIntoMongo_cases (submittedUser r1
      (base64.StdEncoding.EncodeToString (f1.Read (List.replicate d1.Size 0)).1)
      (base64.StdEncoding.EncodeToString (f2.Read (List.replicate d2.Size 0)).1)
      (base64.StdEncoding.EncodeToString (f3.Read (List.replicate d3.Size 0)).1))
    ((world.afterUploads ["idFront", "idBack", "selfieWithId"]).record
      (.insertUserIntoMongo (submittedUser r1
        (base64.StdEncoding.EncodeToString (f1.Read (List.replicate d1.Size 0)).1)
        (base64.StdEncoding.EncodeToString (f2.Read (List.replicate d2.Size 0)).1)
        (base64.StdEncoding.EncodeToString (f3.Read (List.replicate d3.Size 0)).1))))).2.2
    hc hi
  rw [hins] at hres
  refine ⟨?_, ?_, ?_, ?_, ?_, ?_⟩
  · rw [hres]; rfl
  · rw [hres]; rfl
  · intro doc hdoc
    subst hdoc
    by_cases hn : r1.FormValue "notes" = ""
    · refine ⟨?_, ?_, ?_, ?_, ?_, ?_, ?_, ?_, ?_⟩ <;>
        simp [insertUserIntoMongo_doc_eq, submittedUser, hn, List.lookup]
    · refine ⟨?_, ?_, ?_, ?_, ?_, ?_, ?_, ?_, ?_⟩ <;>
        simp [insertUserIntoMongo_doc_eq, submittedUser, hn, List.lookup]
  · rw [EncodeToString_eq_empty, Read_buffer_length]
  · rw [EncodeToString_eq_empty, Read_buffer_length]
  · rw [EncodeToString_eq_empty, Read_buffer_length]

/-- C2, amended, at a concrete input: a complete submission is answered 201 and
stores one document with the values submitted and the three encoded files. -/
theorem handleFormSubmission_valid_witness :
    fullRequest.Method = "POST" ∧
    fullRequest.ParseMultipartForm = .ok fullParsed ∧
    fullParsed.FormFile "idFront" =
      .ok ({ content := [1, 2, 3], chunk := 3, err := none },
        { Filename := "front.jpg", Size := 3 }) ∧
    fullParsed.FormFile "idBack" =
      .ok ({ content := [1], chunk := 1, err := none }, { Filename := "back.PNG", Size := 1 }) ∧
    fullParsed.FormFile "selfieWithId" =
      .ok ({ content := [77, 97], chunk := 2, err := none },
        { Filename := "selfie.pdf", Size := 2 }) ∧
    (handleFormSubmission id {} fullRequest {}).1.code = 201 ∧
    (handleFormSubmission id {} fullRequest {}).2.applications =
      [[("name", "Ada"), ("email", "ada@example.org"), ("phone_number", "555"),
        ("city", "Paris"), ("job_title", "Engineer"), ("identity_doc_front", "AQID"),
        ("identity_doc_back", "AQ=="), ("selfie_with_doc", "TWE=")]] :=
  ⟨rfl, rfl, rfl, rfl, rfl,
   (handleFormSubmission_valid id fullRequest fullParsed {}
      { content := [1, 2, 3], chunk := 3, err := none }
      { content := [1], chunk := 1, err := none }
      { content := [77, 97], chunk := 2, err := none }
      { Filename := "front.jpg", Size := 3 } { Filename := "back.PNG", Size := 1 }
      { Filename := "selfie.pdf", Size := 2 }
      rfl rfl rfl rfl rfl (by decide) (by decide) (by decide) (by decide) (by decide)
      (by decide) (Or.inl rfl) (Or.inl rfl) (Or.inl rfl) rfl rfl).1,
   ((handleFormSubmission_valid id fullRequest fullParsed {}
      { content := [1, 2, 3], chunk := 3, err := none }
      { content := [1], chunk := 1, err := none }
      { content := [77, 97], chunk := 2, err := none }
      { Filename := "front.jpg", Size := 3 } { Filename := "back.PNG", Size := 1 }
      { Filename := "selfie.pdf", Size := 2 }
      rfl rfl rfl rfl rfl (by decide) (by decide) (by decide) (by decide) (by decide)
      (by decide) (Or.inl rfl) (Or.inl rfl) (Or.inl rfl) rfl rfl).2.1).trans (by decide)⟩

/-! ## Failure bodies and JSON -/

/-- C8 fails at a concrete submission: the front document is named `a."b`, the
validator refuses the extension `."b`, and the handler answers 400 with a body
in which the quote of the extension ends the string early; the body is not a
JSON object.  The bodies of the fixed messages and of a refused `a.exe` are. -/
theorem handleFormSubmission_body_not_json :
    quotedNameRequest.Method = "POST" ∧
    (handleFormSubmission id {} quotedNameRequest {}).1.code = 400 ∧
    (handleFormSubmission id {} quotedNameRequest {}).1.body =
      "\x7b\"message\": \"invalid file type: .\"b\"\x7d\n" ∧
    isMessageObject (handleFormSubmission id {} quotedNameRequest {}).1.body = false ∧
    isMessageObject (handleFormSubmission id {} listRequest {}).1.body = true ∧
    isMessageObject "\x7b\"message\": \"invalid file type: .exe\"\x7d\n" = true := by
  refine ⟨rfl, by decide, by decide, by decide, by decide, by decide⟩

/-! ## Listing an empty collection -/

/-- C9 fails whenever the collection is empty: with a GET request, a store that
connects and answers the query, and no document, `handleGetAllUsers` answers
200 with content type application/json, but the body is `null` and a newline,
not the empty array: the slice declared by `var users []User` is still nil
when it is encoded. -/
theorem handleGetAllUsers_empty (quote : String → String) (r : Request) (world : World)
    (hm : r.Method = "GET") (hc : world.connectErr = none) (hf : world.findErr = none)
    (ha : world.allErr = none) (hd : world.applications = []) :
    (handleGetAllUsers quote {} r world).1.code = 200 ∧
    (handleGetAllUsers quote {} r world).1.contentType = some "application/json" ∧
    (handleGetAllUsers quote {} r world).1.body = "null\n" ∧
    (handleGetAllUsers quote {} r world).1.body ≠ "[]\n" ∧
    (handleGetAllUsers quote {} r world).2.applications = [] := by
  have hb : (r.Method != http.MethodGet) = false := by simp [http.MethodGet, hm]
  have hres : handleGetAllUsers quote {} r world =
      ({ header := [("Content-Type", "application/json")], status := some 200,
         body := "null\n" }, (world.record .Connect).record .Find) := by
    simp only [handleGetAllUsers, hb, World.record, hc, hf, Cursor.All, ha, hd, json.Encode,
      Option.map_none']
    rfl
  rw [hres]
  refine ⟨rfl, rfl, rfl, ?_, ?_⟩
  · show "null\n" ≠ "[]\n"
    decide
  · simp [World.record, hd]

/-- C9 at the concrete input: a GET request on the empty store. -/
theorem handleGetAllUsers_empty_witness :
    listRequest.Method = "GET" ∧
    (handleGetAllUsers id {} listRequest {}).1.code = 200 ∧
    (handleGetAllUsers id {} listRequest {}).1.body = "null\n" :=
  ⟨rfl, (handleGetAllUsers_empty id listRequest {} rfl rfl rfl rfl rfl).1,
    (handleGetAllUsers_empty id listRequest {} rfl rfl rfl rfl rfl).2.2.1⟩

end handlers
